import Mathlib

/-!
Shallow embedding of the code-model-arena core: the per-IP rate limiter
(src/lib/rate-limiter.ts), the catalog lookup (src/lib/models.ts), the
request validation schemas (src/lib/validations.ts), the HuggingFace
provider client (src/lib/huggingface.ts), the metrics estimation helper
(src/lib/utils.ts) and the /compare orchestration (src/app/api/v1/compare/route.ts).

Conventions of the embedding:
* JS timestamps (`Date.now()`) are `Nat` milliseconds.
* JS `number` fields that hold fractional values (elapsed seconds,
  temperature, throughput) are `ℚ`.
* The network is an oracle `Nat → HFResp`: the response to the n-th
  `fetch` the call under scrutiny issues.
* Thrown exceptions are the `.error` branch of an `Except`/outcome value.
* `x || y` on JS strings (empty string falsy) is `jsOrStr`.
-/

namespace CodeArena

/-- JS `a || b` for strings: the empty string is falsy. -/
def jsOrStr (a b : String) : String := if a = "" then b else a

/-- src/lib/utils.ts `estimateTokens`: `Math.ceil(text.length / 4)`. -/
def estimateTokens (text : String) : Nat := (text.length + 3) / 4

/-! ## Rate limiter (src/lib/rate-limiter.ts) -/

/-- `const MAX_REQUESTS = 10`. -/
def MAX_REQUESTS : Nat := 10

/-- `const WINDOW_MS = 10 * 60 * 1000`. -/
def WINDOW_MS : Nat := 10 * 60 * 1000

/-- `interface RateLimitEntry { count; resetTime }`. -/
structure RateLimitEntry where
  count : Nat
  resetTime : Nat
deriving DecidableEq, Repr

/-- `interface RateLimitInfo { allowed; remaining; resetTime }` (src/types/api.ts).
`remaining` is a JS number that could in principle go negative, so `Int`. -/
structure RateLimitInfo where
  allowed : Bool
  remaining : Int
  resetTime : Nat
deriving DecidableEq, Repr

/-- The limiter's `Map<string, RateLimitEntry>` as an association list. -/
abbrev RLTable := List (String × RateLimitEntry)

/-- `Map.get`. -/
def mapGet (m : RLTable) (k : String) : Option RateLimitEntry :=
  (m.find? (fun p => p.1 = k)).map (fun p => p.2)

/-- `Map.set`: replace in place if the key exists, else append (the table is
only ever built through this, so keys stay unique and replace-all agrees
with the JS Map). -/
def mapSet (m : RLTable) (k : String) (v : RateLimitEntry) : RLTable :=
  if (List.find? (fun p => p.1 = k) m).isSome then
    m.map (fun p => if p.1 = k then (k, v) else p)
  else
    m ++ [(k, v)]

/-- `RateLimiter.check(identifier)`: returns the mutated table together with
the `RateLimitInfo` the method returns.  `now` is the `Date.now()` reading. -/
def RateLimiter.check (m : RLTable) (identifier : String) (now : Nat) :
    RLTable × RateLimitInfo :=
  match mapGet m identifier with
  | none =>
    let resetTime := now + WINDOW_MS
    (mapSet m identifier ⟨1, resetTime⟩,
     ⟨true, (MAX_REQUESTS : Int) - 1, resetTime⟩)
  | some entry =>
    if entry.resetTime < now then
      let resetTime := now + WINDOW_MS
      (mapSet m identifier ⟨1, resetTime⟩,
       ⟨true, (MAX_REQUESTS : Int) - 1, resetTime⟩)
    else if MAX_REQUESTS ≤ entry.count then
      (m, ⟨false, 0, entry.resetTime⟩)
    else
      (mapSet m identifier ⟨entry.count + 1, entry.resetTime⟩,
       ⟨true, (MAX_REQUESTS : Int) - (entry.count + 1), entry.resetTime⟩)

/-- `RateLimiter.cleanup()`: delete every entry with `now > entry.resetTime`. -/
def RateLimiter.cleanup (m : RLTable) (now : Nat) : RLTable :=
  m.filter (fun p => ¬ p.2.resetTime < now)

/-- The operations the module ever performs on the limiter table. -/
inductive RLOp where
  | check (identifier : String) (now : Nat)
  | cleanup (now : Nat)

/-- One operation applied to the table. -/
def RLStep (m : RLTable) : RLOp → RLTable
  | .check id now => (RateLimiter.check m id now).1
  | .cleanup now => RateLimiter.cleanup m now

/-- A sequence of operations applied to the table. -/
def RLRun (m : RLTable) (ops : List RLOp) : RLTable := ops.foldl RLStep m

/-- Tables reachable from the freshly constructed (empty) limiter. -/
def RLReachable (m : RLTable) : Prop := ∃ ops, RLRun [] ops = m

/-- Successive `check` calls for one identifier at the given clock readings,
collecting the table after all of them and the returned infos in order. -/
def runChecks (m : RLTable) (id : String) : List Nat → RLTable × List RateLimitInfo
  | [] => (m, [])
  | t :: ts =>
    let p := RateLimiter.check m id t
    let q := runChecks p.1 id ts
    (q.1, p.2 :: q.2)

/-! ## Catalog (src/lib/models.ts, src/types/models.ts)

The descriptive fields the embedded functions never read (provider,
description, contextWindow, tags, benchmark scores) are omitted. -/

/-- `type ModelType = 'live' | 'static'`. -/
inductive ModelType where
  | live
  | static
deriving DecidableEq, Repr

/-- `interface LiveModel`: catalog id, display name, and the upstream
HuggingFace model reference `modelId`. -/
structure LiveModel where
  id : String
  name : String
  modelId : String
deriving DecidableEq, Repr

/-- `interface StaticBenchmark`: catalog id and display name. -/
structure StaticBenchmark where
  id : String
  name : String
deriving DecidableEq, Repr

/-- `type Model = LiveModel | StaticBenchmark`. -/
inductive Model where
  | live : LiveModel → Model
  | static : StaticBenchmark → Model
deriving DecidableEq, Repr

/-- The discriminant `m.type`. -/
def Model.type : Model → ModelType
  | .live _ => .live
  | .static _ => .static

/-- The shared `id` field. -/
def Model.id : Model → String
  | .live m => m.id
  | .static b => b.id

/-- The shared `name` field. -/
def Model.name : Model → String
  | .live m => m.name
  | .static b => b.name

/-- `getModelById`: `models.find((m) => m.id === id)`.  The module-level
`models` list (loaded from data/models.json) is a parameter. -/
def getModelById (models : List Model) (id : String) : Option Model :=
  models.find? (fun m => m.id = id)

/-- `filterModels({type, limit, offset})`.  `options.offset || 0` and
`options.limit || filtered.length` follow JS falsiness (0 and absent alike
fall back); `slice(offset, offset + limit)` is drop-then-take for the
non-negative arguments every caller supplies. -/
def filterModels (models : List Model) (type : Option ModelType)
    (limit offset : Option Nat) : List Model :=
  let filtered :=
    match type with
    | none => models
    | some t => models.filter (fun m => m.type = t)
  let off := match offset with | none => 0 | some o => o
  let lim :=
    match limit with
    | none => filtered.length
    | some l => if l = 0 then filtered.length else l
  (filtered.drop off).take lim

/-- `validateModelIds(ids)`: the loop pushing each id onto `valid` or
`invalid` according to `getModelById`. -/
def validateModelIds (models : List Model) : List String → List String × List String
  | [] => ([], [])
  | id :: rest =>
    let p := validateModelIds models rest
    if (getModelById models id).isSome then (id :: p.1, p.2) else (p.1, id :: p.2)

/-! ## Validation schemas (src/lib/validations.ts) -/

/-- The parsed `CompareRequestSchema` output (maxTokens defaulted). -/
structure CompareRequestInput where
  prompt : String
  modelIds : List String
  maxTokens : Int
deriving DecidableEq, Repr

/-- `CompareRequestSchema.parse`: prompt 1–10000 chars, modelIds an array of
1–3 strings, maxTokens an optional int in 1–4096 defaulting to 256.
Acceptance is the conjunction of the independent zod field checks. -/
def CompareRequestSchema.parse (prompt : String) (modelIds : List String)
    (maxTokens : Option Int) : Except String CompareRequestInput :=
  if prompt.length < 1 then .error "Prompt cannot be empty"
  else if 10000 < prompt.length then .error "Prompt cannot exceed 10000 characters"
  else if modelIds.length < 1 then .error "At least one model must be selected"
  else if 3 < modelIds.length then .error "Maximum 3 models can be selected"
  else
    match maxTokens with
    | none => .ok ⟨prompt, modelIds, 256⟩
    | some mt =>
      if mt < 1 then .error "Number must be greater than or equal to 1"
      else if 4096 < mt then .error "Number must be less than or equal to 4096"
      else .ok ⟨prompt, modelIds, mt⟩

/-- The parsed `ModelFilterSchema` output (limit and offset defaulted). -/
structure ModelFilterInput where
  type : Option ModelType
  limit : Int
  offset : Int
deriving DecidableEq, Repr

/-- `ModelFilterSchema.parse`: optional type enum, limit an optional int in
1–100 defaulting to 20, offset an optional int ≥ 0 defaulting to 0 (the
inputs are taken after `z.coerce` has produced numbers). -/
def ModelFilterSchema.parse (type : Option ModelType) (limit offset : Option Int) :
    Except String ModelFilterInput :=
  let lim : Except String Int :=
    match limit with
    | none => Except.ok 20
    | some l =>
      if l < 1 then Except.error "Number must be greater than or equal to 1"
      else if 100 < l then Except.error "Number must be less than or equal to 100"
      else Except.ok l
  let off : Except String Int :=
    match offset with
    | none => Except.ok 0
    | some o =>
      if o < 0 then Except.error "Number must be greater than or equal to 0"
      else Except.ok o
  match lim, off with
  | .ok l, .ok o => .ok ⟨type, l, o⟩
  | .error e, _ => .error e
  | _, .error e => .error e

/-! ## Provider client (src/lib/huggingface.ts) -/

/-- `const HF_API_BASE`. -/
def HF_API_BASE : String := "https://api-inference.huggingface.co/models"

/-- One upstream HTTP response, as the code reads it: the numeric status,
the `error` field of the JSON body (`""` when absent — JS `||` treats the
two alike) and `data[0]?.generated_text || ''`. -/
structure HFResp where
  status : Nat
  errorMsg : String
  generatedText : String
deriving DecidableEq, Repr

/-- `Response.ok`: status in the range 200–299. -/
def respOk (r : HFResp) : Bool := decide (200 ≤ r.status ∧ r.status < 300)

/-- The JSON request one `fetch` sends: URL and body fields. -/
structure HFPayload where
  url : String
  inputs : String
  max_new_tokens : Nat
  temperature : ℚ
deriving DecidableEq, Repr

/-- The body built at a call site of `fetch` in `queryHF`
(`temperature || 0.7`: 0 is falsy). -/
def hfPayload (modelId prompt : String) (maxTokens : Nat) (temperature : ℚ) :
    HFPayload :=
  ⟨HF_API_BASE ++ "/" ++ modelId, prompt, maxTokens,
   if temperature = 0 then 7 / 10 else temperature⟩

/-- What one `queryHF` run did: the value returned or the message thrown,
the requests issued in order, and the total `sleep` time in ms. -/
structure HFOutcome where
  result : Except String String
  requests : List HFPayload
  sleptMs : Nat
deriving Repr

/-- `queryHF(modelId, prompt, maxTokens, temperature)`. `apiKey` is
`process.env.HUGGINGFACE_API_KEY` (`none` = unset); `net n` is the response
to the n-th fetch this call issues. -/
def queryHF (apiKey : Option String) (net : Nat → HFResp)
    (modelId prompt : String) (maxTokens : Nat) (temperature : ℚ) : HFOutcome :=
  match apiKey with
  | none => ⟨.error "HUGGINGFACE_API_KEY is not configured", [], 0⟩
  | some _ =>
    let payload := hfPayload modelId prompt maxTokens temperature
    let response := net 0
    if response.status = 503 then
      let retryResponse := net 1
      if ¬ respOk retryResponse then
        ⟨.error (jsOrStr retryResponse.errorMsg "Model unavailable after retry"),
         [payload, payload], 60000⟩
      else
        ⟨.ok retryResponse.generatedText, [payload, payload], 60000⟩
    else if ¬ respOk response then
      ⟨.error (jsOrStr response.errorMsg ("HF API error: " ++ toString response.status)),
       [payload], 0⟩
    else
      ⟨.ok response.generatedText, [payload], 0⟩

/-! ## Result records and queryModel -/

/-- `interface ModelMetrics` (totalTime and tokensPerSecond are JS floats). -/
structure ModelMetrics where
  totalTime : ℚ
  tokenCount : Nat
  tokensPerSecond : ℚ
deriving DecidableEq, Repr

/-- The `status` tag of `ModelResult` (src/types/models.ts). -/
inductive ModelStatus where
  | success
  | error
  | loading
deriving DecidableEq, Repr

/-- `interface ModelResult`. -/
structure ModelResult where
  modelId : String
  modelName : String
  output : String
  metrics : ModelMetrics
  error : Option String
  status : ModelStatus
deriving DecidableEq, Repr

/-- JS `String.prototype.split` with a one-character separator, over the
character list: always at least one (possibly empty) group. -/
def jsSplitChar (c : Char) : List Char → List (List Char)
  | [] => [[]]
  | ch :: rest =>
    match jsSplitChar c rest with
    | [] => [[]]
    | grp :: gs => if ch = c then [] :: grp :: gs else (ch :: grp) :: gs

/-- JS `s.split(c)` on strings. -/
def jsSplit (s : String) (c : Char) : List String :=
  (jsSplitChar c s.data).map String.mk

/-- `modelId.split('/').pop() || modelId` in `queryModel` (`pop` takes the
last element; an empty last segment is falsy). -/
def hfDisplayName (modelId : String) : String :=
  jsOrStr (((jsSplit modelId '/').getLast?).getD "") modelId

/-- The metrics computation of `queryModel`'s success path as a pure
function of the output text and the elapsed seconds (the spec's Metrics
Deriver). -/
def deriveMetrics (output : String) (elapsed : ℚ) : ModelMetrics :=
  ⟨elapsed, estimateTokens output,
   if 0 < elapsed then (estimateTokens output : ℚ) / elapsed else 0⟩

/-- `queryModel(options)`: wraps `queryHF`, turning a thrown error into a
status=error record with empty output and zeroed metrics, and a success
into a status=success record with derived metrics.  `elapsed` is the
wall-clock `totalTime` the call measured. -/
def queryModel (apiKey : Option String) (net : Nat → HFResp) (elapsed : ℚ)
    (modelId prompt : String) (maxTokens : Nat) (temperature : Option ℚ) :
    ModelResult :=
  let modelName := hfDisplayName modelId
  match (queryHF apiKey net modelId prompt maxTokens (temperature.getD (7 / 10))).result with
  | .ok output =>
    let tokenCount := estimateTokens output
    let tokensPerSecond : ℚ := if 0 < elapsed then (tokenCount : ℚ) / elapsed else 0
    ⟨modelId, modelName, output, ⟨elapsed, tokenCount, tokensPerSecond⟩, none, .success⟩
  | .error msg =>
    ⟨modelId, modelName, "", ⟨0, 0, 0⟩, some msg, .error⟩

/-! ## /compare orchestration (src/app/api/v1/compare/route.ts) -/

/-- One unit of work of the `valid.map(async (modelId) => ...)` fan-out:
the not-found guard, the static short-circuit, and the live `queryModel`
call.  `net` and `elapsed` are indexed by the requested id, giving each
concurrent job its own upstream responses and timing. -/
def compareJob (models : List Model) (apiKey : Option String)
    (net : String → Nat → HFResp) (elapsed : String → ℚ)
    (prompt : String) (maxTokens : Nat) (modelId : String) : ModelResult :=
  match getModelById models modelId with
  | none =>
    ⟨modelId, modelId, "", ⟨0, 0, 0⟩, some "Model not found", .error⟩
  | some (.static benchmark) =>
    ⟨benchmark.id, benchmark.name, "", ⟨0, 0, 0⟩,
     some "Static benchmarks cannot be queried live. They display benchmark scores only.",
     .error⟩
  | some (.live model) =>
    queryModel apiKey (net modelId) (elapsed modelId) model.modelId prompt maxTokens none

/-- `await Promise.all(modelPromises)`: one record per valid id, in input
order (Promise.all preserves the order of the mapped array). -/
def compareResults (models : List Model) (apiKey : Option String)
    (net : String → Nat → HFResp) (elapsed : String → ℚ)
    (prompt : String) (maxTokens : Nat) (valid : List String) : List ModelResult :=
  valid.map (compareJob models apiKey net elapsed prompt maxTokens)

/-- The `metadata` object of the `CompareResponse`. -/
structure CompareMetadata where
  totalModels : Nat
  successfulModels : Nat
  failedModels : Nat
deriving DecidableEq, Repr

/-- The counters the route computes by filtering the assembled results. -/
def compareMetadata (results : List ModelResult) : CompareMetadata :=
  ⟨results.length,
   (results.filter (fun r => r.status == ModelStatus.success)).length,
   (results.filter (fun r => r.status == ModelStatus.error)).length⟩

/-- The entry-count invariant of the limiter table: every stored entry has
`1 ≤ count ≤ MAX_REQUESTS`. -/
def TableOK (m : RLTable) : Prop :=
  ∀ p ∈ m, 1 ≤ p.2.count ∧ p.2.count ≤ MAX_REQUESTS

/-- The infos an in-window run of `n` checks returns when the entry starts
at count `j` with expiry `R` (specification helper for the window proof). -/
def expectedInfos (j R : Nat) : Nat → List RateLimitInfo
  | 0 => []
  | n + 1 =>
    (if j < MAX_REQUESTS then
      RateLimitInfo.mk true ((MAX_REQUESTS : Int) - (j + 1)) R
     else
      RateLimitInfo.mk false 0 R) :: expectedInfos (min (j + 1) MAX_REQUESTS) R n

/-! ## Helper lemmas -/

theorem estimateTokens_eq_ceil (text : String) :
    estimateTokens text = Nat.ceil ((text.length : ℚ) / 4) := by
  unfold estimateTokens
  apply le_antisymm
  · have h := Nat.le_ceil ((text.length : ℚ) / 4)
    rw [div_le_iff₀ (by norm_num : (0 : ℚ) < 4)] at h
    have h2 : text.length ≤ Nat.ceil ((text.length : ℚ) / 4) * 4 := by exact_mod_cast h
    omega
  · rw [Nat.ceil_le, div_le_iff₀ (by norm_num : (0 : ℚ) < 4)]
    have h3 : text.length ≤ (text.length + 3) / 4 * 4 := by omega
    exact_mod_cast h3

theorem mapGet_mapSet_self (m : RLTable) (k : String) (v : RateLimitEntry) :
    mapGet (mapSet m k v) k = some v := by
  induction m with
  | nil => simp [mapGet, mapSet]
  | cons p m ih =>
    by_cases hp : p.1 = k
    · simp [mapGet, mapSet, List.find?, hp]
    · have hfind : List.find? (fun q => q.1 = k) (p :: m) =
          List.find? (fun q => q.1 = k) m := by
        simp [List.find?, hp]
      simp only [mapSet, hfind]
      by_cases hs : (List.find? (fun q => q.1 = k) m).isSome
      · simp only [mapSet, hs, if_true] at ih
        simpa [mapGet, List.find?, hp, hs] using ih
      · simp only [mapSet, hs, if_false] at ih
        simpa [mapGet, List.find?, hp, hs] using ih

theorem mem_mapSet (m : RLTable) (k : String) (v : RateLimitEntry) :
    ∀ q ∈ mapSet m k v, q = (k, v) ∨ q ∈ m := by
  intro q hq
  unfold mapSet at hq
  split at hq
  · obtain ⟨p, hp, he⟩ := List.mem_map.mp hq
    by_cases hpk : p.1 = k
    · simp [hpk] at he
      exact Or.inl he.symm
    · simp [hpk] at he
      exact Or.inr (he ▸ hp)
  · rcases List.mem_append.mp hq with h | h
    · exact Or.inr h
    · simp at h
      exact Or.inl h

theorem mapGet_mem (m : RLTable) (k : String) (e : RateLimitEntry)
    (h : mapGet m k = some e) : (k, e) ∈ m := by
  unfold mapGet at h
  cases hf : List.find? (fun p => p.1 = k) m with
  | none => simp [hf] at h
  | some p =>
    simp [hf] at h
    have hmem := List.mem_of_find?_eq_some hf
    have hkey := List.find?_some hf
    simp at hkey
    have : p = (k, e) := by
      cases p
      simp_all
    exact this ▸ hmem

theorem queryModel_fields (apiKey : Option String) (net : Nat → HFResp)
    (elapsed : ℚ) (modelId prompt : String) (maxTokens : Nat)
    (temperature : Option ℚ) :
    (queryModel apiKey net elapsed modelId prompt maxTokens temperature).modelId =
      modelId ∧
    (queryModel apiKey net elapsed modelId prompt maxTokens temperature).modelName =
      hfDisplayName modelId := by
  unfold queryModel
  cases (queryHF apiKey net modelId prompt maxTokens (temperature.getD (7 / 10))).result with
  | ok o => exact ⟨rfl, rfl⟩
  | error m => exact ⟨rfl, rfl⟩

theorem check_fresh (m : RLTable) (id : String) (now : Nat)
    (h : ∀ e, mapGet m id = some e → e.resetTime < now) :
    RateLimiter.check m id now =
      (mapSet m id ⟨1, now + WINDOW_MS⟩,
       ⟨true, (MAX_REQUESTS : Int) - 1, now + WINDOW_MS⟩) := by
  unfold RateLimiter.check
  cases hm : mapGet m id with
  | none => rfl
  | some e => simp [h e hm]

theorem check_inwindow_incr (m : RLTable) (id : String) (now : Nat)
    (e : RateLimitEntry) (hm : mapGet m id = some e)
    (hw : ¬ e.resetTime < now) (hc : e.count < MAX_REQUESTS) :
    RateLimiter.check m id now =
      (mapSet m id ⟨e.count + 1, e.resetTime⟩,
       ⟨true, (MAX_REQUESTS : Int) - (e.count + 1), e.resetTime⟩) := by
  unfold RateLimiter.check
  simp [hm, hw, Nat.not_le.mpr hc]

theorem check_inwindow_reject (m : RLTable) (id : String) (now : Nat)
    (e : RateLimitEntry) (hm : mapGet m id = some e)
    (hw : ¬ e.resetTime < now) (hc : MAX_REQUESTS ≤ e.count) :
    RateLimiter.check m id now = (m, ⟨false, 0, e.resetTime⟩) := by
  unfold RateLimiter.check
  simp [hm, hw, hc]

theorem tableOK_check (m : RLTable) (id : String) (now : Nat) (h : TableOK m) :
    TableOK (RateLimiter.check m id now).1 := by
  intro q hq
  unfold RateLimiter.check at hq
  cases hm : mapGet m id with
  | none =>
    simp only [hm] at hq
    rcases mem_mapSet _ _ _ q hq with he | he
    · simp [he, MAX_REQUESTS]
    · exact h q he
  | some e =>
    simp only [hm] at hq
    by_cases hw : e.resetTime < now
    · simp only [hw, if_true] at hq
      rcases mem_mapSet _ _ _ q hq with he | he
      · simp [he, MAX_REQUESTS]
      · exact h q he
    · simp only [hw, if_false] at hq
      by_cases hc : MAX_REQUESTS ≤ e.count
      · simp only [hc, if_true] at hq
        exact h q hq
      · simp only [hc, if_false] at hq
        rcases mem_mapSet _ _ _ q hq with he | he
        · subst he
          simp only [Nat.not_le] at hc
          constructor
          · show 1 ≤ e.count + 1
            omega
          · show e.count + 1 ≤ MAX_REQUESTS
            omega
        · exact h q he

theorem tableOK_cleanup (m : RLTable) (now : Nat) (h : TableOK m) :
    TableOK (RateLimiter.cleanup m now) := by
  intro q hq
  exact h q (List.mem_of_mem_filter hq)

theorem tableOK_run (ops : List RLOp) :
    ∀ m, TableOK m → TableOK (RLRun m ops) := by
  induction ops with
  | nil => intro m h; exact h
  | cons op ops ih =>
    intro m h
    apply ih
    cases op with
    | check id now => exact tableOK_check m id now h
    | cleanup now => exact tableOK_cleanup m now h

theorem tableOK_reachable (m : RLTable) (hm : RLReachable m) : TableOK m := by
  obtain ⟨ops, rfl⟩ := hm
  exact tableOK_run ops [] (by intro p hp; cases hp)

theorem runChecks_inwindow (id : String) (ts : List Nat) :
    ∀ (m : RLTable) (j R : Nat), mapGet m id = some ⟨j, R⟩ →
    1 ≤ j → j ≤ MAX_REQUESTS → (∀ τ ∈ ts, τ ≤ R) →
    (runChecks m id ts).2 = expectedInfos j R ts.length ∧
    mapGet (runChecks m id ts).1 id = some ⟨min (j + ts.length) MAX_REQUESTS, R⟩ := by
  induction ts with
  | nil =>
    intro m j R hm h1 h10 _
    refine ⟨rfl, ?_⟩
    simpa [runChecks, Nat.min_eq_left, Nat.add_zero, h10] using hm
  | cons τ ts ih =>
    intro m j R hm h1 h10 hw
    have hτ : ¬ (RateLimitEntry.mk j R).resetTime < τ := by
      simp only [Nat.not_lt]
      exact hw τ (List.mem_cons_self τ ts)
    by_cases hc : j < MAX_REQUESTS
    · have hch := check_inwindow_incr m id τ ⟨j, R⟩ hm hτ hc
      have hnext : mapGet (RateLimiter.check m id τ).1 id = some ⟨j + 1, R⟩ := by
        rw [hch]
        exact mapGet_mapSet_self m id ⟨j + 1, R⟩
      obtain ⟨hres, hget⟩ := ih (RateLimiter.check m id τ).1 (j + 1) R hnext
        (by omega) (by omega) (fun τ2 h2 => hw τ2 (List.mem_cons_of_mem τ h2))
      constructor
      · show (RateLimiter.check m id τ).2 :: (runChecks (RateLimiter.check m id τ).1 id ts).2 = _
        rw [hres, hch]
        simp only [expectedInfos, List.length_cons, hc, if_true]
        rw [Nat.min_eq_left (by omega)]
      · show mapGet (runChecks (RateLimiter.check m id τ).1 id ts).1 id = _
        rw [hget]
        congr 2
        simp only [List.length_cons]
        omega
    · have hc10 : MAX_REQUESTS ≤ j := Nat.not_lt.mp hc
      have hj : j = MAX_REQUESTS := le_antisymm h10 hc10
      have hch := check_inwindow_reject m id τ ⟨j, R⟩ hm hτ hc10
      obtain ⟨hres, hget⟩ := ih (RateLimiter.check m id τ).1 j R (by rw [hch]; exact hm)
        h1 h10 (fun τ2 h2 => hw τ2 (List.mem_cons_of_mem τ h2))
      constructor
      · show (RateLimiter.check m id τ).2 :: (runChecks (RateLimiter.check m id τ).1 id ts).2 = _
        rw [hres, hch]
        simp only [expectedInfos, List.length_cons, hc, if_false]
        congr 1
        congr 1
        omega
      · show mapGet (runChecks (RateLimiter.check m id τ).1 id ts).1 id = _
        rw [hget]
        congr 2
        simp only [List.length_cons]
        omega

theorem expectedInfos_one_ten (R : Nat) :
    expectedInfos 1 R 10 =
      [⟨true, 8, R⟩, ⟨true, 7, R⟩, ⟨true, 6, R⟩, ⟨true, 5, R⟩, ⟨true, 4, R⟩,
       ⟨true, 3, R⟩, ⟨true, 2, R⟩, ⟨true, 1, R⟩, ⟨true, 0, R⟩, ⟨false, 0, R⟩] := rfl

theorem check_spec (m : RLTable) (hOK : TableOK m) (id : String) (now : Nat) :
    0 ≤ (RateLimiter.check m id now).2.remaining ∧
    (RateLimiter.check m id now).2.remaining ≤ (MAX_REQUESTS : Int) - 1 ∧
    ((RateLimiter.check m id now).2.allowed = false →
      (RateLimiter.check m id now).2.remaining = 0) ∧
    (∀ e, mapGet (RateLimiter.check m id now).1 id = some e →
      (RateLimiter.check m id now).2.remaining = (MAX_REQUESTS : Int) - e.count) := by
  cases hm0 : mapGet m id with
  | none =>
    rw [check_fresh m id now (by intro e2 he2; rw [hm0] at he2; cases he2)]
    refine ⟨?_, ?_, ?_, ?_⟩
    · norm_num [MAX_REQUESTS]
    · norm_num
    · intro h
      simp at h
    · intro e2 he2
      rw [mapGet_mapSet_self] at he2
      cases he2
      norm_num [MAX_REQUESTS]
  | some e =>
    by_cases hw : e.resetTime < now
    · rw [check_fresh m id now (by intro e2 he2; rw [hm0] at he2; cases he2; exact hw)]
      refine ⟨?_, ?_, ?_, ?_⟩
      · norm_num [MAX_REQUESTS]
      · norm_num
      · intro h
        simp at h
      · intro e2 he2
        rw [mapGet_mapSet_self] at he2
        cases he2
        norm_num [MAX_REQUESTS]
    · by_cases hc : MAX_REQUESTS ≤ e.count
      · rw [check_inwindow_reject m id now e hm0 hw hc]
        have hmem := (hOK (id, e) (mapGet_mem m id e hm0)).2
        have hec : e.count = MAX_REQUESTS := le_antisymm hmem hc
        refine ⟨le_refl 0, ?_, fun _ => rfl, ?_⟩
        · norm_num [MAX_REQUESTS]
        · intro e2 he2
          rw [hm0] at he2
          cases he2
          rw [hec]
          simp
      · have hlt := Nat.not_le.mp hc
        rw [check_inwindow_incr m id now e hm0 hw hlt]
        refine ⟨?_, ?_, ?_, ?_⟩
        · show (0 : Int) ≤ (MAX_REQUESTS : Int) - (e.count + 1)
          omega
        · show (MAX_REQUESTS : Int) - (e.count + 1) ≤ (MAX_REQUESTS : Int) - 1
          omega
        · intro h
          simp at h
        · intro e2 he2
          rw [mapGet_mapSet_self] at he2
          cases he2
          rfl

/-- C10: on every table reachable by any sequence of check and cleanup
operations from the fresh limiter, every stored entry has 1 ≤ count ≤ 10;
check never returns a negative remaining, the remaining it returns equals
10 minus the entry count after the call (hence at most 9), allowed=false
implies remaining=0; and cleanup keeps exactly the entries whose resetTime
has not passed, each unchanged. -/
theorem rateLimiter_table_invariants (m : RLTable) (hm : RLReachable m) :
    (∀ p ∈ m, 1 ≤ p.2.count ∧ p.2.count ≤ MAX_REQUESTS) ∧
    (∀ id now, 0 ≤ (RateLimiter.check m id now).2.remaining) ∧
    (∀ id now, (RateLimiter.check m id now).2.remaining ≤ (MAX_REQUESTS : Int) - 1) ∧
    (∀ id now e, mapGet (RateLimiter.check m id now).1 id = some e →
      (RateLimiter.check m id now).2.remaining = (MAX_REQUESTS : Int) - e.count) ∧
    (∀ id now, (RateLimiter.check m id now).2.allowed = false →
      (RateLimiter.check m id now).2.remaining = 0) ∧
    (∀ now p, p ∈ RateLimiter.cleanup m now ↔ p ∈ m ∧ ¬ p.2.resetTime < now) := by
  have hOK := tableOK_reachable m hm
  refine ⟨hOK, ?_, ?_, ?_, ?_, ?_⟩
  · intro id now
    exact (check_spec m hOK id now).1
  · intro id now
    exact (check_spec m hOK id now).2.1
  · intro id now e he
    exact (check_spec m hOK id now).2.2.2 e he
  · intro id now h
    exact (check_spec m hOK id now).2.2.1 h
  · intro now p
    unfold RateLimiter.cleanup
    simp [List.mem_filter]

/-- C10 witness: the remaining-value invariant instantiated at the
concrete reachable table produced by one check. -/
theorem rateLimiter_table_invariants_witness :
    0 ≤ (RateLimiter.check (RLRun [] [RLOp.check "a" 0]) "a" 3).2.remaining :=
  (rateLimiter_table_invariants (RLRun [] [RLOp.check "a" 0])
    ⟨[RLOp.check "a" 0], rfl⟩).2.1 "a" 3

/-- C2: from a state with no live entry for an identifier, a check at time
t creates the entry with count 1 and resetTime t+W and returns allowed with
remaining 9; exactly 10 of the 11 in-window checks are allowed (with
remaining counting down 9..0); the 11th returns allowed=false, remaining 0,
resetTime unchanged; and a later check past the window is allowed again
with a fresh window and full remaining count. -/
theorem rateLimiter_window_property (m : RLTable) (id : String) (t t2 : Nat)
    (ts : List Nat)
    (hfresh : ∀ e, mapGet m id = some e → e.resetTime < t)
    (hlen : ts.length = 10)
    (hwin : ∀ τ ∈ ts, τ ≤ t + WINDOW_MS)
    (hlate : t + WINDOW_MS < t2) :
    (RateLimiter.check m id t).2 = ⟨true, 9, t + WINDOW_MS⟩ ∧
    mapGet (RateLimiter.check m id t).1 id = some ⟨1, t + WINDOW_MS⟩ ∧
    (runChecks (RateLimiter.check m id t).1 id ts).2 =
      [⟨true, 8, t + WINDOW_MS⟩, ⟨true, 7, t + WINDOW_MS⟩, ⟨true, 6, t + WINDOW_MS⟩,
       ⟨true, 5, t + WINDOW_MS⟩, ⟨true, 4, t + WINDOW_MS⟩, ⟨true, 3, t + WINDOW_MS⟩,
       ⟨true, 2, t + WINDOW_MS⟩, ⟨true, 1, t + WINDOW_MS⟩, ⟨true, 0, t + WINDOW_MS⟩,
       ⟨false, 0, t + WINDOW_MS⟩] ∧
    List.countP (fun info => info.allowed)
      ((RateLimiter.check m id t).2 ::
        (runChecks (RateLimiter.check m id t).1 id ts).2) = 10 ∧
    (RateLimiter.check (runChecks (RateLimiter.check m id t).1 id ts).1 id t2).2 =
      ⟨true, 9, t2 + WINDOW_MS⟩ := by
  have hch := check_fresh m id t hfresh
  have hget1 : mapGet (RateLimiter.check m id t).1 id = some ⟨1, t + WINDOW_MS⟩ := by
    rw [hch]
    exact mapGet_mapSet_self m id ⟨1, t + WINDOW_MS⟩
  obtain ⟨hres, hget2⟩ := runChecks_inwindow id ts (RateLimiter.check m id t).1 1
    (t + WINDOW_MS) hget1 (le_refl 1) (by norm_num [MAX_REQUESTS]) hwin
  rw [hlen] at hres
  have hres2 := hres.trans (expectedInfos_one_ten (t + WINDOW_MS))
  have hfinal : mapGet (runChecks (RateLimiter.check m id t).1 id ts).1 id =
      some ⟨10, t + WINDOW_MS⟩ := by
    rw [hget2, hlen]
    rfl
  refine ⟨?_, hget1, hres2, ?_, ?_⟩
  · rw [hch]
    norm_num [MAX_REQUESTS]
  · rw [hres2, hch]
    rfl
  · have hfr : ∀ e2, mapGet (runChecks (RateLimiter.check m id t).1 id ts).1 id =
        some e2 → e2.resetTime < t2 := by
      intro e2 he2
      rw [hfinal] at he2
      cases he2
      exact hlate
    rw [check_fresh _ id t2 hfr]
    norm_num [MAX_REQUESTS]

/-- C2 witness: the window property at the empty table, identifier "ip",
first check at time 0, ten further in-window checks, and a late check. -/
theorem rateLimiter_window_property_witness :
    (RateLimiter.check [] "ip" 0).2 = ⟨true, 9, WINDOW_MS⟩ ∧
    List.countP (fun info => info.allowed)
      ((RateLimiter.check [] "ip" 0).2 ::
        (runChecks (RateLimiter.check [] "ip" 0).1 "ip"
          [1, 2, 3, 4, 5, 6, 7, 8, 9, 10]).2) = 10 := by
  have h := rateLimiter_window_property [] "ip" 0 (WINDOW_MS + 1)
    [1, 2, 3, 4, 5, 6, 7, 8, 9, 10]
    (by intro e he; cases he) (by decide) (by decide) (by omega)
  exact ⟨by simpa using h.1, h.2.2.2.1⟩

/-- C4: the metrics derivation is a pure function of (outputText,
elapsedSeconds): tokenCount is the ceiling of length/4, throughput is
tokenCount/elapsed for positive elapsed and 0 otherwise (never a division
by zero, never negative), derive("", 0) is all zeroes, and queryModel's
success path computes exactly this function. -/
theorem metrics_derivation_pure :
    (∀ text : String, estimateTokens text = Nat.ceil ((text.length : ℚ) / 4)) ∧
    deriveMetrics "" 0 = ⟨0, 0, 0⟩ ∧
    (∀ output : String, (deriveMetrics output 0).tokensPerSecond = 0) ∧
    (∀ (output : String) (elapsed : ℚ), 0 ≤ elapsed →
      0 ≤ (deriveMetrics output elapsed).tokensPerSecond) ∧
    (∀ (apiKey : Option String) (net : Nat → HFResp) (elapsed : ℚ)
      (modelId prompt : String) (maxTokens : Nat) (temperature : Option ℚ)
      (output : String),
      (queryHF apiKey net modelId prompt maxTokens (temperature.getD (7 / 10))).result
        = Except.ok output →
      (queryModel apiKey net elapsed modelId prompt maxTokens temperature).metrics =
        deriveMetrics output elapsed) := by
  refine ⟨estimateTokens_eq_ceil, rfl, fun _ => rfl, ?_, ?_⟩
  · intro output elapsed he
    show (0 : ℚ) ≤ if 0 < elapsed then (estimateTokens output : ℚ) / elapsed else 0
    split
    · exact div_nonneg (Nat.cast_nonneg _) he
    · exact le_refl 0
  · intro apiKey net elapsed modelId prompt maxTokens temperature output hq
    unfold queryModel
    rw [hq]
    rfl

/-- C4 witness: the derivation at a concrete successful query. -/
theorem metrics_derivation_pure_witness :
    0 ≤ (deriveMetrics "abcdefgh" 2).tokensPerSecond ∧
    (queryModel (some "k") (fun _ => ⟨200, "", "abcdefgh"⟩) 2 "m" "p" 256 none).metrics =
      deriveMetrics "abcdefgh" 2 :=
  ⟨metrics_derivation_pure.2.2.2.1 "abcdefgh" 2 (by norm_num),
   metrics_derivation_pure.2.2.2.2 (some "k") (fun _ => ⟨200, "", "abcdefgh"⟩) 2
     "m" "p" 256 none "abcdefgh" rfl⟩

/-- C8: validateModelIds partitions the input ids into exactly the
resolvable and the unresolvable ones, preserving the input order within
each group, returning them as data (a total function). -/
theorem validateModelIds_partition (models : List Model) (ids : List String) :
    (validateModelIds models ids).1 =
      ids.filter (fun id => (getModelById models id).isSome) ∧
    (validateModelIds models ids).2 =
      ids.filter (fun id => (getModelById models id).isNone) := by
  induction ids with
  | nil => exact ⟨rfl, rfl⟩
  | cons id rest ih =>
    cases h : getModelById models id with
    | none => simp [validateModelIds, h, ih.1, ih.2]
    | some m => simp [validateModelIds, h, ih.1, ih.2]

/-- C6 counterexample: a request body whose modelIds contain a duplicate
identifier passes CompareRequestSchema — uniqueness is not validated. -/
theorem compareSchema_accepts_duplicates :
    CompareRequestSchema.parse "hi" ["m1", "m1"] none =
      Except.ok ⟨"hi", ["m1", "m1"], 256⟩ ∧
    ¬ List.Nodup ["m1", "m1"] := by
  exact ⟨rfl, by decide⟩

/-- C6 (amended): the schema accepts a body iff prompt has 1–10000
characters, modelIds has 1–3 elements (uniqueness is NOT checked), and a
present maxTokens is in 1–4096; an absent maxTokens behaves exactly like
maxTokens = 256. -/
theorem compareSchema_acceptance (prompt : String) (modelIds : List String)
    (mt : Int) :
    ((CompareRequestSchema.parse prompt modelIds (some mt)).isOk = true ↔
      (1 ≤ prompt.length ∧ prompt.length ≤ 10000 ∧
       1 ≤ modelIds.length ∧ modelIds.length ≤ 3 ∧ 1 ≤ mt ∧ mt ≤ 4096)) ∧
    CompareRequestSchema.parse prompt modelIds none =
      CompareRequestSchema.parse prompt modelIds (some 256) := by
  constructor
  · show (CompareRequestSchema.parse prompt modelIds (some mt)).isOk = true ↔ _
    unfold CompareRequestSchema.parse
    dsimp only
    split_ifs with h1 h2 h3 h4 h5 h6 <;>
      exact ⟨fun hx => by first | omega | exact absurd hx (by decide),
             fun hc => by first | rfl | exact absurd hc (by omega)⟩
  · show CompareRequestSchema.parse prompt modelIds none = _
    unfold CompareRequestSchema.parse
    dsimp only
    split_ifs <;> first | rfl | omega

/-- C6 witness: the acceptance characterization applied at a concrete
accepted body. -/
theorem compareSchema_acceptance_witness :
    (CompareRequestSchema.parse "hi" ["a"] (some 100)).isOk = true :=
  (compareSchema_acceptance "hi" ["a"] 100).1.mpr (by decide)

/-- C7 counterexample: filterModels applies no upper bound of 100 — a call
on a 101-descriptor catalog with limit 101 returns 101 descriptors. -/
theorem filterModels_exceeds_hundred :
    100 < (filterModels
      ((List.range 101).map (fun i => Model.static ⟨"m" ++ toString i, "b"⟩))
      none (some 101) none).length := by
  decide

/-- C7 (amended): filterModels applies offset-then-limit slicing after the
variant filter, with offset defaulting to 0, but a missing (or zero) limit
defaults to the entire filtered list — not 20 — and filterModels itself
enforces no upper bound; the default of 20 and the 1–100 bound exist only
in ModelFilterSchema at the API boundary. -/
theorem filterModels_slicing_and_bounds (models : List Model) (ty : ModelType)
    (l off : Nat) (hl : 0 < l) :
    filterModels models (some ty) (some l) (some off) =
      ((models.filter (fun m => m.type = ty)).drop off).take l ∧
    filterModels models none (some l) (some off) = (models.drop off).take l ∧
    (∀ t lim, filterModels models t lim none = filterModels models t lim (some 0)) ∧
    filterModels models none none (some off) = models.drop off ∧
    (∀ li : Int, (ModelFilterSchema.parse none (some li) none).isOk = true ↔
      1 ≤ li ∧ li ≤ 100) ∧
    ModelFilterSchema.parse none none none = Except.ok ⟨none, 20, 0⟩ := by
  have hl0 : l ≠ 0 := Nat.pos_iff_ne_zero.mp hl
  refine ⟨?_, ?_, fun t lim => rfl, ?_, ?_, rfl⟩
  · simp [filterModels, hl0]
  · simp [filterModels, hl0]
  · simp [filterModels]
  · intro li
    unfold ModelFilterSchema.parse
    dsimp only
    split_ifs <;> simp [Except.isOk, Except.toBool] <;> omega

/-- C7 witness: the slicing characterization at a concrete catalog. -/
theorem filterModels_slicing_and_bounds_witness :
    filterModels [Model.static ⟨"a", "A"⟩, Model.static ⟨"b", "B"⟩] none
      (some 1) (some 1) = [Model.static ⟨"b", "B"⟩] := by
  have h := (filterModels_slicing_and_bounds
    [Model.static ⟨"a", "A"⟩, Model.static ⟨"b", "B"⟩] ModelType.static 1 1
    (by decide)).2.1
  rw [h]
  rfl

/-- C3: a 503 from the upstream is retried exactly once, after a fixed
60-second sleep, with an identical request; a failing or non-success retry
surfaces the upstream message when present, else "Model unavailable after
retry"; a non-503 non-success status is never retried; never more than two
attempts. -/
theorem queryHF_retry_policy (k : String) (net : Nat → HFResp)
    (modelId prompt : String) (maxTokens : Nat) (temperature : ℚ) :
    ((net 0).status = 503 →
      (queryHF (some k) net modelId prompt maxTokens temperature).requests =
        [hfPayload modelId prompt maxTokens temperature,
         hfPayload modelId prompt maxTokens temperature] ∧
      (queryHF (some k) net modelId prompt maxTokens temperature).sleptMs = 60000 ∧
      (respOk (net 1) = false →
        (queryHF (some k) net modelId prompt maxTokens temperature).result =
          Except.error (jsOrStr (net 1).errorMsg "Model unavailable after retry")) ∧
      (respOk (net 1) = true →
        (queryHF (some k) net modelId prompt maxTokens temperature).result =
          Except.ok (net 1).generatedText)) ∧
    ((net 0).status ≠ 503 →
      (queryHF (some k) net modelId prompt maxTokens temperature).requests =
        [hfPayload modelId prompt maxTokens temperature] ∧
      (queryHF (some k) net modelId prompt maxTokens temperature).sleptMs = 0 ∧
      (respOk (net 0) = false →
        (queryHF (some k) net modelId prompt maxTokens temperature).result =
          Except.error (jsOrStr (net 0).errorMsg
            ("HF API error: " ++ toString (net 0).status)))) ∧
    (queryHF (some k) net modelId prompt maxTokens temperature).requests.length ≤ 2 := by
  unfold queryHF
  by_cases h0 : (net 0).status = 503
  · by_cases h1 : respOk (net 1)
    · simp [h0, h1]
    · simp [h0, h1]
  · by_cases hok : respOk (net 0)
    · simp [h0, hok]
    · simp [h0, hok]

/-- C3 witness: a concrete 503-then-500 exchange makes exactly two
identical requests, sleeps 60s, and surfaces the upstream message. -/
theorem queryHF_retry_policy_witness :
    (queryHF (some "k") (fun n => if n = 0 then ⟨503, "", ""⟩ else ⟨500, "oops", ""⟩)
      "m" "p" 256 0).requests.length ≤ 2 ∧
    (queryHF (some "k") (fun n => if n = 0 then ⟨503, "", ""⟩ else ⟨500, "oops", ""⟩)
      "m" "p" 256 0).sleptMs = 60000 ∧
    (queryHF (some "k") (fun n => if n = 0 then ⟨503, "", ""⟩ else ⟨500, "oops", ""⟩)
      "m" "p" 256 0).result = Except.error "oops" := by
  have h := queryHF_retry_policy "k"
    (fun n => if n = 0 then ⟨503, "", ""⟩ else ⟨500, "oops", ""⟩) "m" "p" 256 0
  refine ⟨h.2.2, (h.1 rfl).2.1, ?_⟩
  have h2 := (h.1 rfl).2.2.1 (by decide)
  simpa [jsOrStr] using h2

/-- C9: with the credential absent, queryModel fails fast — no fetch is
issued — and yields a per-model status=error record with the configuration
message, empty output and zeroed metrics; via compareJob every live-model
job yields exactly that record rather than a request-level failure. -/
theorem missing_credential_per_model_error :
    (∀ (net : Nat → HFResp) (elapsed : ℚ) (modelId prompt : String)
      (maxTokens : Nat) (temperature : Option ℚ),
      queryModel none net elapsed modelId prompt maxTokens temperature =
        ⟨modelId, hfDisplayName modelId, "", ⟨0, 0, 0⟩,
         some "HUGGINGFACE_API_KEY is not configured", .error⟩ ∧
      (queryHF none net modelId prompt maxTokens (temperature.getD (7 / 10))).requests
        = []) ∧
    (∀ (models : List Model) (net : String → Nat → HFResp) (elapsed : String → ℚ)
      (prompt : String) (maxTokens : Nat) (id : String) (lm : LiveModel),
      getModelById models id = some (.live lm) →
      compareJob models none net elapsed prompt maxTokens id =
        ⟨lm.modelId, hfDisplayName lm.modelId, "", ⟨0, 0, 0⟩,
         some "HUGGINGFACE_API_KEY is not configured", .error⟩) := by
  constructor
  · intro net elapsed modelId prompt maxTokens temperature
    exact ⟨rfl, rfl⟩
  · intro models net elapsed prompt maxTokens id lm h
    unfold compareJob
    rw [h]
    rfl

/-- C9 witness: a concrete live model with the credential unset. -/
theorem missing_credential_per_model_error_witness :
    compareJob [Model.live ⟨"a", "A", "x/y"⟩] none (fun _ _ => ⟨200, "", "t"⟩)
      (fun _ => 1) "p" 256 "a" =
      ⟨"x/y", "y", "", ⟨0, 0, 0⟩,
       some "HUGGINGFACE_API_KEY is not configured", .error⟩ := by
  have h := missing_credential_per_model_error.2 [Model.live ⟨"a", "A", "x/y"⟩]
    (fun _ _ => ⟨200, "", "t"⟩) (fun _ => 1) "p" 256 "a" ⟨"a", "A", "x/y"⟩ rfl
  rw [h]
  rfl

/-- C5 counterexample: a /compare job for a LiveVariant model produces a
record whose modelId is the upstream provider reference and whose
modelName is derived from it, not the catalog identifier and display
name. -/
theorem live_record_carries_upstream_reference :
    (compareJob [Model.live ⟨"sc-1", "StarCoder 15B", "bigcode/starcoder"⟩]
      (some "key") (fun _ _ => ⟨200, "", "hello"⟩) (fun _ => 1) "p" 256
      "sc-1").modelId = "bigcode/starcoder" ∧
    (compareJob [Model.live ⟨"sc-1", "StarCoder 15B", "bigcode/starcoder"⟩]
      (some "key") (fun _ _ => ⟨200, "", "hello"⟩) (fun _ => 1) "p" 256
      "sc-1").modelId ≠ "sc-1" ∧
    (compareJob [Model.live ⟨"sc-1", "StarCoder 15B", "bigcode/starcoder"⟩]
      (some "key") (fun _ _ => ⟨200, "", "hello"⟩) (fun _ => 1) "p" 256
      "sc-1").modelName = "starcoder" ∧
    (compareJob [Model.live ⟨"sc-1", "StarCoder 15B", "bigcode/starcoder"⟩]
      (some "key") (fun _ _ => ⟨200, "", "hello"⟩) (fun _ => 1) "p" 256
      "sc-1").modelName ≠ "StarCoder 15B" ∧
    (compareJob [Model.live ⟨"sc-1", "StarCoder 15B", "bigcode/starcoder"⟩]
      (some "key") (fun _ _ => ⟨200, "", "hello"⟩) (fun _ => 1) "p" 256
      "sc-1").status = ModelStatus.success := by
  refine ⟨rfl, by decide, rfl, by decide, rfl⟩

/-- C5 (amended): the records of not-found and static jobs carry the
catalog identifier and display name, but the record of a LiveVariant job
carries the upstream model reference as modelId and the final path segment
of that reference (the full reference when the segment is empty) as
modelName. -/
theorem compareJob_record_identity (models : List Model) (apiKey : Option String)
    (net : String → Nat → HFResp) (elapsed : String → ℚ)
    (prompt : String) (maxTokens : Nat) (id : String) :
    (getModelById models id = none →
      (compareJob models apiKey net elapsed prompt maxTokens id).modelId = id ∧
      (compareJob models apiKey net elapsed prompt maxTokens id).modelName = id) ∧
    (∀ b, getModelById models id = some (.static b) →
      (compareJob models apiKey net elapsed prompt maxTokens id).modelId = b.id ∧
      (compareJob models apiKey net elapsed prompt maxTokens id).modelName = b.name) ∧
    (∀ lm, getModelById models id = some (.live lm) →
      (compareJob models apiKey net elapsed prompt maxTokens id).modelId =
        lm.modelId ∧
      (compareJob models apiKey net elapsed prompt maxTokens id).modelName =
        hfDisplayName lm.modelId) := by
  refine ⟨?_, ?_, ?_⟩
  · intro h
    unfold compareJob
    rw [h]
    exact ⟨rfl, rfl⟩
  · intro b h
    unfold compareJob
    rw [h]
    exact ⟨rfl, rfl⟩
  · intro lm h
    unfold compareJob
    rw [h]
    exact
      ⟨(queryModel_fields apiKey (net id) (elapsed id) lm.modelId prompt maxTokens none).1,
       (queryModel_fields apiKey (net id) (elapsed id) lm.modelId prompt maxTokens none).2⟩

/-- C5 witness: the amended identity at a concrete catalog. -/
theorem compareJob_record_identity_witness :
    (compareJob [Model.live ⟨"sc-1", "StarCoder 15B", "bigcode/starcoder"⟩]
      (some "key") (fun _ _ => ⟨200, "", "hello"⟩) (fun _ => 1) "p" 256
      "sc-1").modelName = hfDisplayName "bigcode/starcoder" :=
  ((compareJob_record_identity
    [Model.live ⟨"sc-1", "StarCoder 15B", "bigcode/starcoder"⟩]
    (some "key") (fun _ _ => ⟨200, "", "hello"⟩) (fun _ => 1) "p" 256
    "sc-1").2.2 ⟨"sc-1", "StarCoder 15B", "bigcode/starcoder"⟩ rfl).2

theorem compareJob_status (models : List Model) (apiKey : Option String)
    (net : String → Nat → HFResp) (elapsed : String → ℚ)
    (prompt : String) (maxTokens : Nat) (id : String) :
    (compareJob models apiKey net elapsed prompt maxTokens id).status =
      ModelStatus.success ∨
    (compareJob models apiKey net elapsed prompt maxTokens id).status =
      ModelStatus.error := by
  have hq : ∀ (net2 : Nat → HFResp) (elapsed2 : ℚ) (modelId2 : String),
      (queryModel apiKey net2 elapsed2 modelId2 prompt maxTokens none).status =
        ModelStatus.success ∨
      (queryModel apiKey net2 elapsed2 modelId2 prompt maxTokens none).status =
        ModelStatus.error := by
    intro net2 elapsed2 modelId2
    unfold queryModel
    cases (queryHF apiKey net2 modelId2 prompt maxTokens
        ((none : Option ℚ).getD (7 / 10))).result with
    | ok o => exact Or.inl rfl
    | error msg => exact Or.inr rfl
  unfold compareJob
  cases h : getModelById models id with
  | none => exact Or.inr rfl
  | some m =>
    cases m with
    | static b => exact Or.inr rfl
    | live lm => exact hq (net id) (elapsed id) lm.modelId

theorem count_success_add_error (rs : List ModelResult)
    (h : ∀ r ∈ rs, r.status = ModelStatus.success ∨ r.status = ModelStatus.error) :
    (rs.filter (fun r => r.status == ModelStatus.success)).length +
    (rs.filter (fun r => r.status == ModelStatus.error)).length = rs.length := by
  induction rs with
  | nil => rfl
  | cons r rs ih =>
    have hr := h r (List.mem_cons_self r rs)
    have ih2 := ih (fun x hx => h x (List.mem_cons_of_mem r hx))
    rcases hr with hs | hs <;> simp [List.filter_cons, hs] <;> omega

/-- C1: /compare dispatches exactly one job per requested identifier and
returns one ResultRecord per identifier in input order (Promise.all over
the map); every job yields a record with status success or error — no
job's failure escapes as a request-level failure — and the metadata
counters equal the number of success and error records, summing to
totalModels. -/
theorem compare_one_record_per_model (models : List Model) (apiKey : Option String)
    (net : String → Nat → HFResp) (elapsed : String → ℚ)
    (prompt : String) (maxTokens : Nat) (valid : List String)
    (h1 : 1 ≤ valid.length) (h3 : valid.length ≤ 3) :
    (compareResults models apiKey net elapsed prompt maxTokens valid).length =
      valid.length ∧
    (∀ (i : Nat) (id : String), valid[i]? = some id →
      (compareResults models apiKey net elapsed prompt maxTokens valid)[i]? =
        some (compareJob models apiKey net elapsed prompt maxTokens id)) ∧
    (∀ r ∈ compareResults models apiKey net elapsed prompt maxTokens valid,
      r.status = ModelStatus.success ∨ r.status = ModelStatus.error) ∧
    (compareMetadata
      (compareResults models apiKey net elapsed prompt maxTokens valid)).totalModels =
      valid.length ∧
    (compareMetadata
      (compareResults models apiKey net elapsed prompt maxTokens valid)).successfulModels =
      ((compareResults models apiKey net elapsed prompt maxTokens valid).filter
        (fun r => r.status == ModelStatus.success)).length ∧
    (compareMetadata
      (compareResults models apiKey net elapsed prompt maxTokens valid)).failedModels =
      ((compareResults models apiKey net elapsed prompt maxTokens valid).filter
        (fun r => r.status == ModelStatus.error)).length ∧
    (compareMetadata
      (compareResults models apiKey net elapsed prompt maxTokens valid)).successfulModels +
    (compareMetadata
      (compareResults models apiKey net elapsed prompt maxTokens valid)).failedModels =
    (compareMetadata
      (compareResults models apiKey net elapsed prompt maxTokens valid)).totalModels := by
  have hmem : ∀ r ∈ compareResults models apiKey net elapsed prompt maxTokens valid,
      r.status = ModelStatus.success ∨ r.status = ModelStatus.error := by
    intro r hr
    obtain ⟨id, hid, he⟩ := List.mem_map.mp hr
    rw [← he]
    exact compareJob_status models apiKey net elapsed prompt maxTokens id
  refine ⟨List.length_map _ _, ?_, hmem, List.length_map _ _, rfl, rfl, ?_⟩
  · intro i id hid
    simp [compareResults, List.getElem?_map, hid]
  · exact count_success_add_error _ hmem

/-- C1 witness: the isolation scenario — one live model that succeeds, one
whose provider call fails, one static-only model — yields 3 records with
counters summing to 3. -/
theorem compare_one_record_per_model_witness :
    (compareResults
      [Model.live ⟨"m1", "M1", "org/m1"⟩, Model.live ⟨"m2", "M2", "org/m2"⟩,
       Model.static ⟨"m3", "M3"⟩]
      (some "k")
      (fun id _ => if id = "m1" then ⟨200, "", "out!"⟩ else ⟨500, "boom", ""⟩)
      (fun _ => 1) "p" 256 ["m1", "m2", "m3"]).length = 3 ∧
    (compareMetadata (compareResults
      [Model.live ⟨"m1", "M1", "org/m1"⟩, Model.live ⟨"m2", "M2", "org/m2"⟩,
       Model.static ⟨"m3", "M3"⟩]
      (some "k")
      (fun id _ => if id = "m1" then ⟨200, "", "out!"⟩ else ⟨500, "boom", ""⟩)
      (fun _ => 1) "p" 256 ["m1", "m2", "m3"])).successfulModels +
    (compareMetadata (compareResults
      [Model.live ⟨"m1", "M1", "org/m1"⟩, Model.live ⟨"m2", "M2", "org/m2"⟩,
       Model.static ⟨"m3", "M3"⟩]
      (some "k")
      (fun id _ => if id = "m1" then ⟨200, "", "out!"⟩ else ⟨500, "boom", ""⟩)
      (fun _ => 1) "p" 256 ["m1", "m2", "m3"])).failedModels =
    (compareMetadata (compareResults
      [Model.live ⟨"m1", "M1", "org/m1"⟩, Model.live ⟨"m2", "M2", "org/m2"⟩,
       Model.static ⟨"m3", "M3"⟩]
      (some "k")
      (fun id _ => if id = "m1" then ⟨200, "", "out!"⟩ else ⟨500, "boom", ""⟩)
      (fun _ => 1) "p" 256 ["m1", "m2", "m3"])).totalModels := by
  have h := compare_one_record_per_model
    [Model.live ⟨"m1", "M1", "org/m1"⟩, Model.live ⟨"m2", "M2", "org/m2"⟩,
     Model.static ⟨"m3", "M3"⟩]
    (some "k")
    (fun id _ => if id = "m1" then ⟨200, "", "out!"⟩ else ⟨500, "boom", ""⟩)
    (fun _ => 1) "p" 256 ["m1", "m2", "m3"] (by decide) (by decide)
  exact ⟨h.1, h.2.2.2.2.2.2⟩

end CodeArena
